import Mathlib

/-!
Verification development for the deepspeech.pytorch acoustic model core
(`model.py`): the length projector `DeepSpeech.get_seq_lens`, the
`ResidualRepeatWav2Letter` architecture assembler, the attention `Decoder`
(teacher-forced training vs greedy inference), and the checkpoint migration
layer (`add_phonemes_to_model`, `add_denoising_to_model`,
`add_s2s_decoder_to_model`).

Tensors carry a data-parallel batch dimension in the source; all batched
primitive operations act elementwise along it, so sequences are modelled per
batch element.  Machine floats in the length projector are modelled as exact
rationals; integer truncation (`Tensor.int()`) is truncation toward zero.
-/

/-! ### Length projector: `DeepSpeech.get_seq_lens` (model.py:1004-1042)

The projector walks the realized backbone's `nn.Conv1d` modules in order
(exact type match, so the `Conv1dSamePadding` subclass used for the pointwise
channel mixers and the squeeze-excite blocks is skipped) and applies
`seq_len = (seq_len + 2*padding - dilation*(kernel_size-1) - 1)/stride + 1`
in float arithmetic, truncating to integer once at the end via `.int()`. -/

/-- Length-relevant metadata of one `nn.Conv1d` module. -/
structure ConvMeta where
  kernel_size : ℕ
  stride : ℕ
  padding : ℕ
  dilation : ℕ
deriving DecidableEq, Repr

/-- Truncation toward zero of a rational, the semantics of `Tensor.int()`. -/
def ratTrunc (q : ℚ) : ℤ := if 0 ≤ q then ⌊q⌋ else ⌈q⌉

/-- One step of the source loop in `get_seq_lens`:
`seq_len = ((seq_len + 2 * m.padding[0] - m.dilation[0] * (m.kernel_size[0] - 1) - 1) / m.stride[0] + 1)`,
computed in exact (float) arithmetic, no intermediate rounding. -/
def convOutQ (seq_len : ℚ) (m : ConvMeta) : ℚ :=
  (seq_len + 2 * (m.padding : ℚ) - (m.dilation : ℚ) * ((m.kernel_size : ℚ) - 1) - 1)
    / (m.stride : ℚ) + 1

/-- `DeepSpeech.get_seq_lens` for the `cnn_residual_repeat_sep_*` family:
fold the float conv-output-length formula over the `nn.Conv1d` modules of
`self.rnns`, then convert to integer (`.int()`, truncation toward zero). -/
def get_seq_lens (convs : List ConvMeta) (input_length : ℕ) : ℤ :=
  ratTrunc (convs.foldl convOutQ (input_length : ℚ))

/-- The specification formula for one convolutional layer:
`floor((L + 2*pad - dilation*(kernel-1) - 1) / stride + 1)`.
`Int` division by the nonnegative stride is floor division. -/
def convOutFloor (seq_len : ℤ) (m : ConvMeta) : ℤ :=
  (seq_len + 2 * (m.padding : ℤ) - (m.dilation : ℤ) * ((m.kernel_size : ℤ) - 1) - 1)
    / (m.stride : ℤ) + 1

/-- The spec-side length projector: fold the per-layer floor formula over the
convolutional layers in order; non-convolutional layers are identity. -/
def project_length (convs : List ConvMeta) (input_length : ℕ) : ℤ :=
  convs.foldl convOutFloor (input_length : ℤ)

/-- A conv layer whose stride is positive and whose parameters keep the
running (possibly fractional) length nonnegative when it is nonnegative:
`dilation*(kernel-1) + 1 ≤ 2*padding + stride`.  Every convolution the
assembler realizes satisfies this. -/
def convNonnegStep (m : ConvMeta) : Prop :=
  0 < m.stride ∧
    (m.dilation : ℤ) * ((m.kernel_size : ℤ) - 1) + 1 ≤ 2 * (m.padding : ℤ) + (m.stride : ℤ)

instance (m : ConvMeta) : Decidable (convNonnegStep m) := by
  unfold convNonnegStep; infer_instance

/-- Floor of a rational divided by a natural number equals integer (floor)
division of its floor. -/
lemma floor_div_natCast (q : ℚ) (n : ℕ) (hn : 0 < n) :
    ⌊q / (n : ℚ)⌋ = ⌊q⌋ / (n : ℤ) := by
  have hnQ : (0 : ℚ) < (n : ℚ) := by exact_mod_cast hn
  have hnZ : (0 : ℤ) < (n : ℤ) := by exact_mod_cast hn
  rw [Int.floor_eq_iff]
  constructor
  · rw [le_div_iff₀ hnQ]
    have h1 : (⌊q⌋ / (n : ℤ)) * (n : ℤ) ≤ ⌊q⌋ := Int.ediv_mul_le ⌊q⌋ (by omega)
    calc ((⌊q⌋ / (n : ℤ) : ℤ) : ℚ) * (n : ℚ)
        = (((⌊q⌋ / (n : ℤ)) * (n : ℤ) : ℤ) : ℚ) := by push_cast; ring
      _ ≤ (⌊q⌋ : ℚ) := by exact_mod_cast h1
      _ ≤ q := Int.floor_le q
  · rw [div_lt_iff₀ hnQ]
    have h2 : ⌊q⌋ < (⌊q⌋ / (n : ℤ) + 1) * (n : ℤ) := Int.lt_ediv_add_one_mul_self ⌊q⌋ hnZ
    have h3 : q < (⌊q⌋ : ℚ) + 1 := Int.lt_floor_add_one q
    have h4 : ((⌊q⌋ : ℤ) : ℚ) + 1 ≤ (((⌊q⌋ / (n : ℤ) + 1) * (n : ℤ) : ℤ) : ℚ) := by
      exact_mod_cast h2
    calc q < (⌊q⌋ : ℚ) + 1 := h3
      _ ≤ (((⌊q⌋ / (n : ℤ) + 1) * (n : ℤ) : ℤ) : ℚ) := h4
      _ = (((⌊q⌋ / (n : ℤ) : ℤ) : ℚ) + 1) * (n : ℚ) := by push_cast; ring

/-- Flooring the exact rational conv-step equals the integer floor formula
applied to the floor of the input. -/
lemma floor_convOutQ (q : ℚ) (m : ConvMeta) (h : 0 < m.stride) :
    ⌊convOutQ q m⌋ = convOutFloor ⌊q⌋ m := by
  unfold convOutQ convOutFloor
  have hA : q + 2 * (m.padding : ℚ) - (m.dilation : ℚ) * ((m.kernel_size : ℚ) - 1) - 1
      = q + ((2 * (m.padding : ℤ) - (m.dilation : ℤ) * ((m.kernel_size : ℤ) - 1) - 1 : ℤ) : ℚ) := by
    push_cast; ring
  rw [hA, Int.floor_add_one, floor_div_natCast _ _ h, Int.floor_add_int]
  ring_nf

/-- Folding the integer floor formula over a layer list agrees with flooring
the float fold once at the end (each layer's additive offset is an integer,
so intermediate flooring never changes the final floor). -/
lemma fold_floor_eq (convs : List ConvMeta) (q : ℚ)
    (h : ∀ m ∈ convs, 0 < m.stride) :
    convs.foldl convOutFloor ⌊q⌋ = ⌊convs.foldl convOutQ q⌋ := by
  induction convs generalizing q with
  | nil => rfl
  | cons m rest ih =>
    have hm : 0 < m.stride := h m (List.mem_cons_self m rest)
    have hrest : ∀ c ∈ rest, 0 < c.stride := fun c hc => h c (List.mem_cons_of_mem m hc)
    simp only [List.foldl_cons]
    rw [← floor_convOutQ q m hm]
    exact ih (convOutQ q m) hrest

/-- The float fold stays nonnegative on nonnegative input when every layer
satisfies `convNonnegStep`. -/
lemma fold_nonneg (convs : List ConvMeta) (q : ℚ)
    (h : ∀ m ∈ convs, convNonnegStep m) (hq : 0 ≤ q) :
    0 ≤ convs.foldl convOutQ q := by
  induction convs generalizing q with
  | nil => exact hq
  | cons m rest ih =>
    have hm := h m (List.mem_cons_self m rest)
    have hrest : ∀ c ∈ rest, convNonnegStep c := fun c hc => h c (List.mem_cons_of_mem m hc)
    simp only [List.foldl_cons]
    refine ih (convOutQ q m) hrest ?_
    obtain ⟨hs, hoff⟩ := hm
    have hsQ : (0 : ℚ) < (m.stride : ℚ) := by exact_mod_cast hs
    have hoffQ : (m.dilation : ℚ) * ((m.kernel_size : ℚ) - 1) + 1
        ≤ 2 * (m.padding : ℚ) + (m.stride : ℚ) := by exact_mod_cast hoff
    have hnum : 0 ≤ q + 2 * (m.padding : ℚ) - (m.dilation : ℚ) * ((m.kernel_size : ℚ) - 1) - 1
        + (m.stride : ℚ) := by linarith
    have : convOutQ q m =
        (q + 2 * (m.padding : ℚ) - (m.dilation : ℚ) * ((m.kernel_size : ℚ) - 1) - 1
          + (m.stride : ℚ)) / (m.stride : ℚ) := by
      unfold convOutQ
      field_simp
    rw [this]
    exact div_nonneg hnum (le_of_lt hsQ)

/-- `get_seq_lens` (float fold + final truncation) agrees with the spec's
per-layer floor fold on every layer list whose layers satisfy
`convNonnegStep`, for every input length. -/
lemma get_seq_lens_eq_project (convs : List ConvMeta)
    (h : ∀ m ∈ convs, convNonnegStep m) (L : ℕ) :
    get_seq_lens convs L = project_length convs L := by
  unfold get_seq_lens project_length ratTrunc
  have h1 : ∀ m ∈ convs, 0 < m.stride := fun m hm => (h m hm).1
  have hnn : 0 ≤ convs.foldl convOutQ (L : ℚ) :=
    fold_nonneg convs (L : ℚ) h (by positivity)
  rw [if_pos hnn, ← fold_floor_eq convs _ h1, Int.floor_natCast]

/-! ### Architecture assembler: `ResidualRepeatWav2Letter.__init__` (model.py:1335-1612)

Structural (length/channel/skip) content of the block sequence the assembler
realizes.  Parameter initialization is irrelevant to every claim and is not
modelled. -/

/-- Which structural position a block occupies, following the source comments:
"prolog", inverted-bottleneck down/up projection, the dedicated non-residual
downsampling blocks, the main (possibly residual) blocks, the
`vary_cnn_width` transition block, and the epilog blocks before the head. -/
inductive BlockRole where
  | prolog
  | invDown
  | downsample
  | main
  | transition
  | invUp
  | epilog
deriving DecidableEq, Repr

/-- The keyword record a `Block(**kwargs)` call receives (structural part).
Source keys `_in`/`out` are `in_channels`/`out_channels` here; `se` is the
source's `se_ratio` value and `repeat_n` its `repeat`. -/
structure BlockSpec where
  role : BlockRole
  in_channels : ℕ
  out_channels : ℕ
  kernel_size : ℕ
  padding : ℕ
  stride : ℕ
  dilation : ℕ
  se : ℚ
  skip : Bool
  repeat_n : ℕ
deriving DecidableEq, Repr

/-- Configuration record (`DotDict`) consumed by `ResidualRepeatWav2Letter`.
Optional keys carry the source's defaults (`config.X if 'X' in config`). -/
structure RRConfig where
  size : ℕ
  cnn_width : ℕ
  repeat_layers : ℕ
  kernel_size : ℕ
  se : ℚ
  skip : Bool
  groups : ℕ := 1
  decoder_type : String := "pointwise"
  num_classes : ℕ := 0
  decoder_layers : ℕ := 2
  add_downsample : Option ℕ := none
  dilated_blocks : List ℕ := []
  separable : Bool := false
  inverted_bottleneck : Bool := false
  vary_cnn_width : Bool := false
  denoise : Bool := false
deriving DecidableEq, Repr

/-- `downsampled_blocks`: `[1]` for `add_downsample == 2`, `[1, 2]` for
`add_downsample == 4` (the prolog already has stride 2), else empty. -/
def downsampledBlocksList (cfg : RRConfig) : List ℕ :=
  match cfg.add_downsample with
  | some 2 => [1]
  | some 4 => [1, 2]
  | _ => []

/-- `downsampled_subblocks`: `[0]` ("always at the beginning of each block")
when `add_downsample` is configured, else empty. -/
def downsampledSubblocksList (cfg : RRConfig) : List ℕ :=
  if cfg.add_downsample.isSome then [0] else []

/-- The inner double loop of the assembler for one stage `j`: for each
sub-index `i < repeat_layers // 3`, compute
`dilation = 1 + (j in dilated_blocks)*(i in [1,2])*(dilation_level - 1)` with
`dilation_level = 2`, and `stride = 1 + (j in downsampled_blocks)*(i in
downsampled_subblocks)`; at stride 2 emit a dedicated non-residual
downsampling block before the (stride-1) main block with `repeat = repeats[j]`,
`se_ratio = config.se_ratio` and `skip = config.skip`. -/
def stageBlocks (cfg : RRConfig) (cw j rep : ℕ) : List BlockSpec :=
  (List.range (cfg.repeat_layers / 3)).flatMap (fun i =>
    let dil : ℕ := if j ∈ cfg.dilated_blocks ∧ (i = 1 ∨ i = 2) then 2 else 1
    let strd : ℕ :=
      if j ∈ downsampledBlocksList cfg ∧ i ∈ downsampledSubblocksList cfg then 2 else 1
    (if strd = 2 then
      [⟨BlockRole.downsample, cw, cw, cfg.kernel_size, cfg.kernel_size / 2, 2, dil, 0, false, 1⟩]
     else []) ++
    [⟨BlockRole.main, cw, cw, cfg.kernel_size, cfg.kernel_size / 2, 1, dil, cfg.se, cfg.skip, rep⟩])

/-- The `kwargs` dict still in scope when the `vary_cnn_width` transition
fires (after stage `j = 1`): the last main block's kwargs if the inner loop
ran, else the inverted-bottleneck down-projection's, else the prolog's. -/
def lastKwAtTransition (cfg : RRConfig) (cw : ℕ) : BlockSpec :=
  if cfg.repeat_layers / 3 = 0 then
    (if cfg.inverted_bottleneck then
      ⟨BlockRole.invDown, cw, cw / 4, cfg.kernel_size, cfg.kernel_size / 2, 1, 1, 0, false, 1⟩
     else
      ⟨BlockRole.prolog, 161, cw, cfg.kernel_size, cfg.kernel_size / 2, 2, 1, 0, false, 1⟩)
  else
    let i := cfg.repeat_layers / 3 - 1
    let dil : ℕ := if 1 ∈ cfg.dilated_blocks ∧ (i = 1 ∨ i = 2) then 2 else 1
    ⟨BlockRole.main, cw, cw, cfg.kernel_size, cfg.kernel_size / 2, 1, dil, cfg.se, cfg.skip, 2⟩

/-- The ordered block sequence `modules` the assembler realizes: prolog
(always stride 2, `161 -> cnn_width`, no skip, no squeeze-excite), optional
inverted-bottleneck down-projection, three stages with `repeats = [2, 2, 1]`,
the `vary_cnn_width` transition doubling the width after stage 1, optional
inverted-bottleneck up-projection, and the epilog blocks of the selected
decoder head (two for `pointwise` with kernels 31 and 1; one with kernel 31
for `plain_gru`/`attention`/`double_supervision`; none for `transformer`). -/
def rrwBlocks (cfg : RRConfig) : List BlockSpec :=
  let ks := cfg.kernel_size
  let pad := ks / 2
  let cw0 := if cfg.vary_cnn_width then cfg.cnn_width / 2 else cfg.cnn_width
  let prologB : BlockSpec := ⟨BlockRole.prolog, 161, cw0, ks, pad, 2, 1, 0, false, 1⟩
  let invDownB : List BlockSpec :=
    if cfg.inverted_bottleneck then
      [⟨BlockRole.invDown, cw0, cw0 / 4, ks, pad, 1, 1, 0, false, 1⟩]
    else []
  let s0 := stageBlocks cfg cw0 0 2
  let s1 := stageBlocks cfg cw0 1 2
  let transB : List BlockSpec :=
    if cfg.vary_cnn_width then
      let kw := lastKwAtTransition cfg cw0
      [⟨BlockRole.transition, cw0, cw0 * 2, kw.kernel_size, kw.padding, kw.stride,
        kw.dilation, 0, false, 1⟩]
    else []
  let cw2 := if cfg.vary_cnn_width then cw0 * 2 else cw0
  let s2 := stageBlocks cfg cw2 2 1
  let invUpB : List BlockSpec :=
    if cfg.inverted_bottleneck then
      [⟨BlockRole.invUp, cw2 / 4, cw2, ks, pad, 1, 1, 0, false, 1⟩]
    else []
  let epilogB : List BlockSpec :=
    if cfg.decoder_type = "pointwise" then
      [⟨BlockRole.epilog, cw2, cfg.size, 31, 15, 1, 1, 0, false, 1⟩,
       ⟨BlockRole.epilog, cfg.size, cfg.size, 1, 0, 1, 1, 0, false, 1⟩]
    else if cfg.decoder_type = "plain_gru" ∨ cfg.decoder_type = "attention"
        ∨ cfg.decoder_type = "double_supervision" then
      [⟨BlockRole.epilog, cw2, cfg.size, 31, 15, 1, 1, 0, false, 1⟩]
    else []
  prologB :: (invDownB ++ s0 ++ s1 ++ transB ++ s2 ++ invUpB ++ epilogB)

/-- The exact `nn.Conv1d` modules a `SeparableRepeatBlock` contributes to the
length projector's walk: `repeat` convolutions sharing the block's kernel,
stride and dilation, with padding recomputed to `dilation*(kernel-1)//2`
when `dilation > 1` (model.py:1903-1904); the `Conv1dSamePadding` channel
mixers and squeeze-excite convolutions are subclasses and are skipped by the
projector's exact type test. -/
def blockConvs (b : BlockSpec) : List ConvMeta :=
  let pad := if 1 < b.dilation then b.dilation * (b.kernel_size - 1) / 2 else b.padding
  List.replicate b.repeat_n ⟨b.kernel_size, b.stride, pad, b.dilation⟩

/-- All exact `nn.Conv1d` modules of the realized `self.rnns` in module
registration order: for `double_supervision` the head's `ctc_fc` pointwise
projection (registered before `self.layers`), then the backbone blocks'
convolutions.  Recurrent and transformer decoder submodules contain no
`nn.Conv1d`. -/
def rrwConvs (cfg : RRConfig) : List ConvMeta :=
  (if cfg.decoder_type = "double_supervision" then [⟨1, 1, 0, 1⟩] else []) ++
    (rrwBlocks cfg).flatMap blockConvs

/-- Structural shape every assembled block satisfies: positive stride in
{1, 2}, dilation in {1, 2}, and padding `kernel_size // 2`. -/
def blockShapeOk (b : BlockSpec) : Prop :=
  (b.stride = 1 ∨ b.stride = 2) ∧ (b.dilation = 1 ∨ b.dilation = 2) ∧
    b.padding = b.kernel_size / 2

lemma mem_of_ite_nil {α : Type} {P : Prop} [Decidable P] {l : List α} {b : α}
    (h : b ∈ (if P then l else [])) : b ∈ l := by
  split at h
  · exact h
  · exact absurd h (List.not_mem_nil b)

lemma stageBlocks_facts (cfg : RRConfig) (cw j rep : ℕ) :
    ∀ b ∈ stageBlocks cfg cw j rep,
      blockShapeOk b ∧ (b.role ≠ BlockRole.main → b.skip = false) ∧
        (b.skip = true → b.in_channels = b.out_channels ∧ b.stride = 1) := by
  intro b hb
  simp only [stageBlocks, List.mem_flatMap, List.mem_range] at hb
  obtain ⟨i, -, hb⟩ := hb
  rw [List.mem_append] at hb
  rcases hb with hb | hb
  · have hb' := mem_of_ite_nil hb
    rw [List.mem_singleton] at hb'
    subst hb'
    refine ⟨⟨Or.inr rfl, ?_, rfl⟩, fun _ => rfl, fun h => by cases h⟩
    dsimp only
    split
    · exact Or.inr rfl
    · exact Or.inl rfl
  · rw [List.mem_singleton] at hb
    subst hb
    refine ⟨⟨Or.inl rfl, ?_, rfl⟩, fun h => absurd rfl h, fun _ => ⟨rfl, rfl⟩⟩
    dsimp only
    split
    · exact Or.inr rfl
    · exact Or.inl rfl

lemma lastKw_shape (cfg : RRConfig) (cw : ℕ) :
    ((lastKwAtTransition cfg cw).stride = 1 ∨ (lastKwAtTransition cfg cw).stride = 2) ∧
      ((lastKwAtTransition cfg cw).dilation = 1 ∨ (lastKwAtTransition cfg cw).dilation = 2) ∧
      (lastKwAtTransition cfg cw).padding = (lastKwAtTransition cfg cw).kernel_size / 2 := by
  unfold lastKwAtTransition
  split
  · split
    · exact ⟨Or.inl rfl, Or.inl rfl, rfl⟩
    · exact ⟨Or.inr rfl, Or.inl rfl, rfl⟩
  · refine ⟨Or.inl rfl, ?_, rfl⟩
    dsimp only
    split
    · exact Or.inr rfl
    · exact Or.inl rfl

lemma rrwBlocks_facts (cfg : RRConfig) :
    ∀ b ∈ rrwBlocks cfg,
      blockShapeOk b ∧ (b.role ≠ BlockRole.main → b.skip = false) ∧
        (b.skip = true → b.in_channels = b.out_channels ∧ b.stride = 1) := by
  intro b hb
  unfold rrwBlocks at hb
  simp only [List.mem_cons, List.mem_append] at hb
  rcases hb with rfl | hb
  · exact ⟨⟨Or.inr rfl, Or.inl rfl, rfl⟩, fun _ => rfl, fun h => by cases h⟩
  rcases hb with ((((((hb | hb) | hb) | hb) | hb) | hb) | hb)
  · have hb' := mem_of_ite_nil hb
    rw [List.mem_singleton] at hb'
    subst hb'
    exact ⟨⟨Or.inl rfl, Or.inl rfl, rfl⟩, fun _ => rfl, fun h => by cases h⟩
  · exact stageBlocks_facts cfg _ 0 2 b hb
  · exact stageBlocks_facts cfg _ 1 2 b hb
  · have hb' := mem_of_ite_nil hb
    rw [List.mem_singleton] at hb'
    subst hb'
    obtain ⟨hs, hd, hp⟩ := lastKw_shape cfg (if cfg.vary_cnn_width then cfg.cnn_width / 2 else cfg.cnn_width)
    exact ⟨⟨hs, hd, hp⟩, fun _ => rfl, fun h => by cases h⟩
  · exact stageBlocks_facts cfg _ 2 1 b hb
  · have hb' := mem_of_ite_nil hb
    rw [List.mem_singleton] at hb'
    subst hb'
    exact ⟨⟨Or.inl rfl, Or.inl rfl, rfl⟩, fun _ => rfl, fun h => by cases h⟩
  · split at hb
    · rw [List.mem_cons, List.mem_singleton] at hb
      rcases hb with rfl | rfl
      · exact ⟨⟨Or.inl rfl, Or.inl rfl, by norm_num⟩, fun _ => rfl, fun h => by cases h⟩
      · exact ⟨⟨Or.inl rfl, Or.inl rfl, by norm_num⟩, fun _ => rfl, fun h => by cases h⟩
    split at hb
    · rw [List.mem_singleton] at hb
      subst hb
      exact ⟨⟨Or.inl rfl, Or.inl rfl, by norm_num⟩, fun _ => rfl, fun h => by cases h⟩
    · exact absurd hb (List.not_mem_nil b)

lemma convNonnegStep_of_block (b : BlockSpec) (hs : blockShapeOk b) :
    ∀ c ∈ blockConvs b, convNonnegStep c := by
  intro c hc
  unfold blockConvs at hc
  rw [List.mem_replicate] at hc
  obtain ⟨-, rfl⟩ := hc
  obtain ⟨hst, hd, hp⟩ := hs
  unfold convNonnegStep
  dsimp only
  refine ⟨by rcases hst with h | h <;> omega, ?_⟩
  rcases hd with h | h
  · rw [h, hp]
    rw [if_neg (by omega : ¬ (1 : ℕ) < 1)]
    rcases hst with h2 | h2 <;> rw [h2] <;> omega
  · rw [h]
    rw [if_pos (by omega : (1 : ℕ) < 2)]
    rcases hst with h2 | h2 <;> rw [h2] <;> omega

lemma rrwConvs_nonneg (cfg : RRConfig) : ∀ c ∈ rrwConvs cfg, convNonnegStep c := by
  intro c hc
  unfold rrwConvs at hc
  rw [List.mem_append] at hc
  rcases hc with hc | hc
  · have hc' := mem_of_ite_nil hc
    rw [List.mem_singleton] at hc'
    subst hc'
    exact (by decide : convNonnegStep ⟨1, 1, 0, 1⟩)
  · rw [List.mem_flatMap] at hc
    obtain ⟨b, hb, hcb⟩ := hc
    exact convNonnegStep_of_block b (rrwBlocks_facts cfg b hb).1 c hcb

/-! ### Realized configurations (`DeepSpeech.__init__`, model.py:234-913)

The `DotDict` the `'cnn_residual_repeat_sep_down8'` branch (model.py:403-422)
passes to `ResidualRepeatWav2Letter`: separable blocks, `skip = True`,
`se_ratio = 0.2`, `add_downsample = 4`, no dilation, groups 12, pointwise
decoder head.  `size` is `rnn_hidden_size`, `repeat_layers` is `nb_layers`,
`cnn_width` and `kernel_size` are the constructor arguments. -/
def down8Config (size cnn_width repeat_layers kernel_size : ℕ) : RRConfig :=
  { size := size
    cnn_width := cnn_width
    repeat_layers := repeat_layers
    kernel_size := kernel_size
    se := 1 / 5
    skip := true
    groups := 12
    decoder_type := "pointwise"
    add_downsample := some 4
    dilated_blocks := []
    separable := true }

/-- The decoder heads the assembler implements; any other `decoder_type`
string raises at assembly time. -/
def realizedDecoderTypes : List String :=
  ["pointwise", "transformer", "plain_gru", "attention", "double_supervision"]

/-- Claim C1: For every realized backbone and every input length L, the length
projector `get_seq_lens` (float fold over the realized `nn.Conv1d` layers,
truncated to int once at the end) equals the fold, in order, of the per-layer
floor formula `floor((L + 2*pad - dilation*(kernel-1) - 1)/stride + 1)`, with
all non-convolutional layers acting as the identity on length. -/
theorem C1_get_seq_lens_is_floor_fold (cfg : RRConfig)
    (_hker : 1 ≤ cfg.kernel_size)
    (_hdown : cfg.add_downsample = none ∨ cfg.add_downsample = some 2 ∨
      cfg.add_downsample = some 4)
    (_hdec : cfg.decoder_type ∈ realizedDecoderTypes) (L : ℕ) :
    get_seq_lens (rrwConvs cfg) L = project_length (rrwConvs cfg) L :=
  get_seq_lens_eq_project (rrwConvs cfg) (rrwConvs_nonneg cfg) L

/-- Witness for C1 at the realized `cnn_residual_repeat_sep_down8`
configuration (depth 12, kernel 7) and input length 800. -/
theorem C1_witness :
    get_seq_lens (rrwConvs (down8Config 768 768 12 7)) 800 =
      project_length (rrwConvs (down8Config 768 768 12 7)) 800 :=
  C1_get_seq_lens_is_floor_fold (down8Config 768 768 12 7) (by decide)
    (by decide) (by decide) 800

/-- Claim C4: In every generated block sequence, a block constructed with
`skip = True` has equal declared input and output channel counts and
stride 1 (so the residual addition in `SeparableRepeatBlock.forward`,
model.py:1952-1958, is between identically shaped tensors), and the
prolog, downsampling, transition, inverted-bottleneck projection and
epilog blocks are always constructed with `skip = False`. -/
theorem C4_skip_block_invariant (cfg : RRConfig) (b : BlockSpec)
    (hb : b ∈ rrwBlocks cfg) :
    (b.skip = true → b.in_channels = b.out_channels ∧ b.stride = 1) ∧
      (b.role ≠ BlockRole.main → b.skip = false) := by
  obtain ⟨-, h2, h3⟩ := rrwBlocks_facts cfg b hb
  exact ⟨h3, h2⟩

set_option maxRecDepth 8000 in
/-- Witness for C4 at the realized `down8` configuration and its first
residual main block. -/
theorem C4_witness :
    (⟨BlockRole.main, 768, 768, 7, 3, 1, 1, 1 / 5, true, 2⟩ : BlockSpec) ∈
        rrwBlocks (down8Config 768 768 12 7) ∧
      ((768 : ℕ) = 768 ∧ (1 : ℕ) = 1) ∧
        (BlockRole.main ≠ BlockRole.main →
          (⟨BlockRole.main, 768, 768, 7, 3, 1, 1, 1 / 5, true, 2⟩ : BlockSpec).skip = false) := by
  have hmem : (⟨BlockRole.main, 768, 768, 7, 3, 1, 1, 1 / 5, true, 2⟩ : BlockSpec) ∈
      rrwBlocks (down8Config 768 768 12 7) := by
    simp [rrwBlocks, stageBlocks, down8Config, downsampledBlocksList,
      downsampledSubblocksList, List.mem_flatMap, List.mem_range]
    exact ⟨0, by omega⟩
  have h := C4_skip_block_invariant (down8Config 768 768 12 7) _ hmem
  exact ⟨hmem, h.1 rfl, h.2⟩

set_option maxRecDepth 8000 in
/-- Claim C9: for the realized `cnn_residual_repeat_sep_down8` configuration
(separable, depth 12, `add_downsample = 4`, pointwise head), the length
projector maps input length 800 to exactly 100: the stride-2 prolog plus the
two internal stride-2 downsampling blocks give total downsampling 8. -/
theorem C9_down8_length_800_to_100 :
    get_seq_lens (rrwConvs (down8Config 768 768 12 7)) 800 = 100 := by
  rw [get_seq_lens_eq_project (rrwConvs (down8Config 768 768 12 7))
    (rrwConvs_nonneg (down8Config 768 768 12 7)) 800]
  decide

/-! ### Head construction and assembly-time failures
(`ResidualRepeatWav2Letter.__init__`, decoder branches, model.py:1487-1612)

Failure modes in statement order:
  * `assert config.add_downsample in [2, 4]` (model.py:1368);
  * the `attention` branch calls
    `Decoder(256, size, self.num_classes, attention, num_layers=2, ...)`
    (model.py:1551-1554), but `Decoder.__init__` (model.py:2884-2889) has
    parameters `num_encoder_layers`/`num_decoder_layers` and no `num_layers`,
    so the call raises `TypeError` unconditionally;
  * the `double_supervision` branch builds
    `nn.Conv1d(size, self.num_classes - 1, 1)` for `ctc_fc`
    (model.py:1584-1586); with `num_classes == 0` the output channel count
    is `-1` and tensor allocation raises (negative dimension);
  * an unknown `decoder_type` raises (model.py:1597-1598);
  * the `denoise` branch asserts no inverted bottleneck and the expected
    module count (model.py:1600-1602). -/

/-- The attention sub-decoder record (`Decoder.__init__` arguments the
`double_supervision` branch passes, model.py:1591-1595). -/
structure S2SDecoderSpec where
  emb_size : ℕ
  hidden_size : ℕ
  tgt_vocab : ℕ
  sos_index : ℤ
  num_encoder_layers : ℕ
  num_decoder_layers : ℕ
deriving DecidableEq, Repr

/-- The decoder head variants the assembler realizes. -/
inductive HeadSpec where
  | pointwise
  | transformer (decoder_layers : ℕ)
  | plain_gru (decoder_layers : ℕ)
  | double_supervision (ctc_out_channels : ℕ) (s2s : S2SDecoderSpec)
deriving DecidableEq, Repr

/-- The decoder branch of `ResidualRepeatWav2Letter.__init__`. -/
def decoderHead (cfg : RRConfig) : Except String HeadSpec :=
  if cfg.decoder_type = "pointwise" then .ok HeadSpec.pointwise
  else if cfg.decoder_type = "transformer" then .ok (HeadSpec.transformer cfg.decoder_layers)
  else if cfg.decoder_type = "plain_gru" then .ok (HeadSpec.plain_gru cfg.decoder_layers)
  else if cfg.decoder_type = "attention" then
    .error "TypeError: unexpected keyword argument num_layers"
  else if cfg.decoder_type = "double_supervision" then
    if cfg.num_classes = 0 then
      .error "RuntimeError: ctc_fc out_channels is negative"
    else
      .ok (HeadSpec.double_supervision (cfg.num_classes - 1)
        { emb_size := 256
          hidden_size := cfg.size
          tgt_vocab := cfg.num_classes
          sos_index := (cfg.num_classes : ℤ) - 2
          num_encoder_layers := 2
          num_decoder_layers := 2 })
  else .error "NotImplementedError"

/-- `ResidualRepeatWav2Letter.__init__` as an assembly step: the
`add_downsample` assertion, the block sequence, the decoder head, and the
`denoise` assertions, with failures in the source's statement order. -/
def residualRepeatWav2Letter_init (cfg : RRConfig) :
    Except String (List BlockSpec × HeadSpec) :=
  if ¬ (cfg.add_downsample = none ∨ cfg.add_downsample = some 2 ∨
      cfg.add_downsample = some 4) then
    .error "AssertionError: add_downsample"
  else
    match decoderHead cfg with
    | .error e => .error e
    | .ok h =>
      if cfg.denoise then
        if cfg.inverted_bottleneck then .error "AssertionError: inverted_bottleneck"
        else if (rrwBlocks cfg).length ≠ 1 + 3 * (cfg.repeat_layers / 3) + 2 + 1 + 1 then
          .error "AssertionError: module count"
        else .ok (rrwBlocks cfg, h)
      else .ok (rrwBlocks cfg, h)

/-- `true` exactly on successful assembly. -/
def exceptIsOk {ε α : Type} : Except ε α → Bool
  | .ok _ => true
  | .error _ => false

/-- CTC sub-head vocabulary size of a head, when it has one. -/
def headCtcVocab : HeadSpec → Option ℕ
  | HeadSpec.double_supervision c _ => some c
  | _ => none

/-- Attention sub-head vocabulary size of a head, when it has one. -/
def headAttnVocab : HeadSpec → Option ℕ
  | HeadSpec.double_supervision _ s => some s.tgt_vocab
  | _ => none

/-- Claim C5: assembling with decoder kind `attention` or `double_supervision` and
vocabulary size 0 fails at construction time with an error; it never returns
an assembled model.  (For `attention` the constructor call itself is
ill-formed and raises for every vocabulary size; for `double_supervision`
the CTC projection's output channel count `num_classes - 1` is negative.) -/
theorem C5_zero_vocab_rejected (cfg : RRConfig)
    (hvocab : cfg.num_classes = 0)
    (hdec : cfg.decoder_type = "attention" ∨ cfg.decoder_type = "double_supervision") :
    exceptIsOk (residualRepeatWav2Letter_init cfg) = false := by
  unfold residualRepeatWav2Letter_init
  split
  · rfl
  · rcases hdec with h | h
    · have hh : decoderHead cfg =
          Except.error "TypeError: unexpected keyword argument num_layers" := by
        unfold decoderHead
        rw [h]
        rfl
      rw [hh]
      rfl
    · have hh : decoderHead cfg =
          Except.error "RuntimeError: ctc_fc out_channels is negative" := by
        unfold decoderHead
        rw [h, hvocab]
        rfl
      rw [hh]
      rfl

/-- Realized `attention` configuration
(`cnn_residual_repeat_sep_down8_groups8_attention` branch, model.py:667-688). -/
def attnConfig (size cnn_width repeat_layers kernel_size num_classes : ℕ) : RRConfig :=
  { size := size
    cnn_width := cnn_width
    repeat_layers := repeat_layers
    kernel_size := kernel_size
    se := 1 / 5
    skip := true
    groups := 8
    decoder_type := "attention"
    num_classes := num_classes
    add_downsample := some 4
    dilated_blocks := []
    separable := true }

/-- Realized `double_supervision` configuration
(`cnn_residual_repeat_sep_down8_groups8_double_supervision` branch,
model.py:689-710). -/
def dsConfig (size cnn_width repeat_layers kernel_size num_classes : ℕ) : RRConfig :=
  { size := size
    cnn_width := cnn_width
    repeat_layers := repeat_layers
    kernel_size := kernel_size
    se := 1 / 5
    skip := true
    groups := 8
    decoder_type := "double_supervision"
    num_classes := num_classes
    add_downsample := some 4
    dilated_blocks := []
    separable := true }

/-- Witness for C5: the realized attention and double-supervision
configurations with vocabulary size 0 are both rejected. -/
theorem C5_witness :
    exceptIsOk (residualRepeatWav2Letter_init (attnConfig 768 768 12 7 0)) = false ∧
      exceptIsOk (residualRepeatWav2Letter_init (dsConfig 768 768 12 7 0)) = false :=
  ⟨C5_zero_vocab_rejected (attnConfig 768 768 12 7 0) rfl (Or.inl rfl),
   C5_zero_vocab_rejected (dsConfig 768 768 12 7 0) rfl (Or.inr rfl)⟩

/-- Claim C8: for every double-supervision head assembled with `vocab_size ≥ 3`,
the CTC sub-decoder's output vocabulary (`ctc_fc` output channels,
`num_classes - 1`: sos/eos excluded, blank and double-char included) is
exactly one less than the attention sub-decoder's vocabulary
(`num_classes`). -/
theorem C8_ds_ctc_vocab_one_less (cfg : RRConfig)
    (hdec : cfg.decoder_type = "double_supervision")
    (hn : 3 ≤ cfg.num_classes)
    (hdown : cfg.add_downsample = none ∨ cfg.add_downsample = some 2 ∨
      cfg.add_downsample = some 4)
    (hden : cfg.denoise = false) :
    ∃ bl h, residualRepeatWav2Letter_init cfg = .ok (bl, h) ∧
      headCtcVocab h = some (cfg.num_classes - 1) ∧
      headAttnVocab h = some cfg.num_classes ∧
      (cfg.num_classes - 1) + 1 = cfg.num_classes := by
  have hh : decoderHead cfg = .ok (HeadSpec.double_supervision (cfg.num_classes - 1)
      { emb_size := 256
        hidden_size := cfg.size
        tgt_vocab := cfg.num_classes
        sos_index := (cfg.num_classes : ℤ) - 2
        num_encoder_layers := 2
        num_decoder_layers := 2 }) := by
    unfold decoderHead
    rw [hdec]
    rw [if_neg (by decide), if_neg (by decide), if_neg (by decide), if_neg (by decide),
      if_pos rfl, if_neg (by omega)]
  unfold residualRepeatWav2Letter_init
  rw [if_neg (not_not_intro hdown), hh, hden]
  refine ⟨rrwBlocks cfg, _, rfl, ?_, ?_, by omega⟩ <;> rfl

/-- Witness for C8 at the realized double-supervision configuration with
vocabulary size 34. -/
theorem C8_witness :
    ∃ bl h, residualRepeatWav2Letter_init (dsConfig 768 768 12 7 34) = .ok (bl, h) ∧
      headCtcVocab h = some 33 ∧ headAttnVocab h = some 34 ∧ (33 : ℕ) + 1 = 34 :=
  C8_ds_ctc_vocab_one_less (dsConfig 768 768 12 7 34) rfl (by decide) (by decide) rfl

/-! ### Checkpoint migration layer (`DeepSpeech` static methods, model.py:1082-1144)

The migrations mutate the model object in place; each is modelled as a state
transformer returning the final state together with the raised exception, if
any (`none` = normal return).  Backbone blocks and their parameter blobs are
abstract (`List ℤ` of module identities): no migration below ever constructs
or modifies an existing identity. -/

/-- The freshly initialized pointwise phoneme projection
(`nn.Conv1d(hidden_size, phoneme_count, kernel_size=1)`); `weights` is the
fresh random initialization, externalized. -/
structure PhonemeHead where
  in_channels : ℕ
  out_channels : ℕ
  weights : List ℚ
deriving DecidableEq, Repr

/-- The mutable fields of a `DeepSpeech` model the migrations touch.
`layers` is `model.rnns.layers` (backbone block sequence with its trained
parameters, abstract identities); `encoder` the four-segment
`model.rnns.encoder` partition; `fc_phoneme` the optional phoneme head;
`phoneme_count` models `hasattr(model, '_phoneme_count')`. -/
structure ModelState where
  rnn_type : String
  labels : String
  hidden_size : ℕ
  phoneme_count : Option ℕ := none
  fc_phoneme : Option PhonemeHead := none
  layers : Option (List ℤ) := none
  encoder : Option (List ℤ × List ℤ × List ℤ × List ℤ) := none
  denoise_filters : Option (List ℕ) := none
  encoder_grad_frozen : Bool := false
  num_classes : ℕ := 0
  decoder_type : String := "pointwise"
deriving DecidableEq, Repr

/-- `DeepSpeech.add_phonemes_to_model` (model.py:1082-1093): set
`model._phoneme_count`, then attach a fresh
`nn.Conv1d(model._hidden_size, model._phoneme_count, 1)` head as
`model.fc_phoneme`; nothing else is assigned.  `freshW` is the head's fresh
random initialization. -/
def add_phonemes_to_model (model : ModelState) (phoneme_count : ℕ)
    (freshW : List ℚ) : ModelState :=
  let m1 := { model with phoneme_count := some phoneme_count }
  { m1 with fc_phoneme := some ⟨m1.hidden_size, phoneme_count, freshW⟩ }

/-- `DeepSpeech.add_denoising_to_model` (model.py:1095-1118): assert the
model kind is `'cnn_residual_repeat_sep_down8'` (raising before any mutation
otherwise), retag it as the denoising kind, partition `model.rnns.layers`
into the four encoder segments at indices `1 + 12//3`, `1 + 2*(12//3) + 1`,
`1 + 3*(12//3) + 2` (hard-coded `repeat_layers = 12`), attach the
`LinkNetDenoising(filters=[161] + [768]*3)` head (hard-coded
`cnn_width = 768`), delete `layers`, and freeze the encoder gradients. -/
def add_denoising_to_model (model : ModelState) : ModelState × Option String :=
  if model.rnn_type = "cnn_residual_repeat_sep_down8" then
    let repeat_layers := 12
    let cnn_width := 768
    let m1 := { model with rnn_type := "cnn_residual_repeat_sep_down8_denoise" }
    let ls := m1.layers.getD []
    let m2 := { m1 with
      encoder := some
        (ls.take (1 + 1 * (repeat_layers / 3) + 0),
         (ls.drop (1 + 1 * (repeat_layers / 3))).take
           ((1 + 2 * (repeat_layers / 3) + 1) - (1 + 1 * (repeat_layers / 3))),
         (ls.drop (1 + 2 * (repeat_layers / 3) + 1)).take
           ((1 + 3 * (repeat_layers / 3) + 2) - (1 + 2 * (repeat_layers / 3) + 1)),
         ls.drop (1 + 3 * (repeat_layers / 3) + 2))
      denoise_filters := some ([161] ++ List.replicate 3 cnn_width)
      layers := none
      encoder_grad_frozen := true }
    (m2, none)
  else (model, some "AssertionError")

/-- `DeepSpeech.add_s2s_decoder_to_model` (model.py:1120-1144): assert the
model kind is `'cnn_residual_repeat_sep_down8_groups8_plain_gru'` (raising
before any mutation otherwise); then retag as the attention kind, store the
labels and class count and switch the decoder type — after which the
`Decoder(256, hidden, num_classes, attention, num_layers=..., ...)` call
raises `TypeError` (`Decoder.__init__`, model.py:2884-2889, has no
`num_layers` parameter), leaving those mutations in place. -/
def add_s2s_decoder_to_model (model : ModelState) (labels : String)
    (_decoder_layers : ℕ) : ModelState × Option String :=
  if model.rnn_type = "cnn_residual_repeat_sep_down8_groups8_plain_gru" then
    let num_classes := labels.length
    let m1 := { model with
      rnn_type := "cnn_residual_repeat_sep_down8_groups8_attention"
      labels := labels
      num_classes := num_classes
      decoder_type := "attention" }
    (m1, some "TypeError: unexpected keyword argument num_layers")
  else (model, some "AssertionError")

/-- Claim C6: a migration whose structural precondition on the current kind fails
raises (`AssertionError`) and returns the model completely unmodified: the
assertion is the first statement of each migration, before any mutation. -/
theorem C6_migration_precondition_atomic (m : ModelState) (labels : String)
    (decoder_layers : ℕ) :
    (m.rnn_type ≠ "cnn_residual_repeat_sep_down8" →
      add_denoising_to_model m = (m, some "AssertionError")) ∧
    (m.rnn_type ≠ "cnn_residual_repeat_sep_down8_groups8_plain_gru" →
      add_s2s_decoder_to_model m labels decoder_layers = (m, some "AssertionError")) := by
  constructor
  · intro h
    unfold add_denoising_to_model
    rw [if_neg h]
  · intro h
    unfold add_s2s_decoder_to_model
    rw [if_neg h]

/-- Witness for C6: a plain-CNN model is rejected unmodified by both
migrations. -/
theorem C6_witness :
    add_denoising_to_model { rnn_type := "cnn", labels := "abc", hidden_size := 768 } =
        ({ rnn_type := "cnn", labels := "abc", hidden_size := 768 }, some "AssertionError") ∧
      add_s2s_decoder_to_model { rnn_type := "cnn", labels := "abc", hidden_size := 768 }
          "abcd" 2 =
        ({ rnn_type := "cnn", labels := "abc", hidden_size := 768 }, some "AssertionError") :=
  ⟨(C6_migration_precondition_atomic
      { rnn_type := "cnn", labels := "abc", hidden_size := 768 } "abcd" 2).1 (by decide),
   (C6_migration_precondition_atomic
      { rnn_type := "cnn", labels := "abc", hidden_size := 768 } "abcd" 2).2 (by decide)⟩

/-- Claim C7: adding a phoneme head, once or twice, only sets `_phoneme_count` and
attaches a fresh `fc_phoneme` head; every other field — in particular the
backbone `layers` with all its parameters — is byte-identical to before the
first call. -/
theorem C7_add_phonemes_frame (m : ModelState) (c1 c2 : ℕ) (w1 w2 : List ℚ) :
    add_phonemes_to_model m c1 w1 =
        { m with phoneme_count := some c1,
                 fc_phoneme := some ⟨m.hidden_size, c1, w1⟩ } ∧
      add_phonemes_to_model (add_phonemes_to_model m c1 w1) c2 w2 =
        { m with phoneme_count := some c2,
                 fc_phoneme := some ⟨m.hidden_size, c2, w2⟩ } ∧
      (add_phonemes_to_model (add_phonemes_to_model m c1 w1) c2 w2).layers = m.layers :=
  ⟨rfl, rfl, rfl⟩

/-! ### Attention sequence decoder (`Decoder`, model.py:2881-3046)

The decoder's numeric primitives — embedding lookup, the `bridge` GRU
(`init_rnn_states`), attention key projection, `forward_step` (attention
context + GRU advance + pre-output projection) and the generator
(linear + log-softmax) — are black-box shape-respecting operators
(spec scope); the control structure of `train_batch`, `inference` and
`forward` is modelled exactly.  All batched operations act elementwise along
the batch dimension, so one batch element is modelled; `χ` is the type of
one time step of encoder/CNN state, `ε` an embedding vector, `η` the GRU
hidden state, `ρ` one pre-output time row. -/

/-- The attention `Decoder`: vocabulary data and the black-box numeric
primitives. `forward_step prev_embed encoder_output src_mask proj_key hidden`
returns the advanced hidden state and the step's pre-output row (the
`output` return of the source is unused by both callers).  `src_mask` is the
all-ones mask both entry points build. -/
structure Decoder (χ ε η ρ : Type) where
  tgt_vocab : ℕ
  sos_index : ℕ
  trg_embed : ℕ → ε
  bridge : List χ → List χ × η
  key_layer : List χ → List χ
  forward_step : ε → List χ → List ℚ → List χ → η → η × ρ
  generator_row : ρ → List ℚ
  argmax_row : List ℚ → ℕ

/-- `Decoder.init_rnn_states` (model.py:3044-3046): run the bridge GRU over
the CNN states, returning `(output, final)`. -/
def Decoder.init_rnn_states {χ ε η ρ : Type} (d : Decoder χ ε η ρ)
    (cnn_states : List χ) : List χ × η :=
  d.bridge cnn_states

/-- One iteration of the `train_batch` unroll (model.py:2981-2986): embed the
ground-truth token of this step, run `forward_step`, append the pre-output
row. -/
def Decoder.train_step {χ ε η ρ : Type} (d : Decoder χ ε η ρ)
    (encoder_output : List χ) (src_mask : List ℚ) (proj_key : List χ)
    (st : η × List ρ) (tok : ℕ) : η × List ρ :=
  let prev_embed := d.trg_embed tok
  let hp := d.forward_step prev_embed encoder_output src_mask proj_key st.1
  (hp.1, st.2 ++ [hp.2])

/-- `Decoder.train_batch` (model.py:2953-2991): teacher-forced unroll for
exactly `trg.size(1)` steps, consuming `trg_embed[:, i]` at step `i`, then
`generator` over the concatenated pre-output rows. -/
def Decoder.train_batch {χ ε η ρ : Type} (d : Decoder χ ε η ρ)
    (cnn_states : List χ) (trg : List ℕ) : List (List ℚ) :=
  let src_mask : List ℚ := List.replicate cnn_states.length 1
  let eo := d.init_rnn_states cnn_states
  let encoder_output := eo.1
  let hidden := eo.2
  let proj_key := d.key_layer encoder_output
  let res := trg.foldl (d.train_step encoder_output src_mask proj_key) (hidden, [])
  res.2.map d.generator_row

/-- One iteration of the greedy `inference` loop (model.py:3017-3031): embed
the previous emitted token, run `forward_step`, append the pre-output row,
and feed back the argmax of this step's generator distribution. -/
def Decoder.inference_step {χ ε η ρ : Type} (d : Decoder χ ε η ρ)
    (encoder_output : List χ) (src_mask : List ℚ) (proj_key : List χ)
    (st : ℕ × η × List ρ) (_i : ℕ) : ℕ × η × List ρ :=
  let prev_embed := d.trg_embed st.1
  let hp := d.forward_step prev_embed encoder_output src_mask proj_key st.2.1
  let prob := d.generator_row hp.2
  (d.argmax_row prob, hp.1, st.2.2 ++ [hp.2])

/-- `Decoder.inference` (model.py:2993-3042): greedy unroll for exactly
`max_len = cnn_states.size(1)` steps starting from the sos token, then
`generator` over the concatenated rows, then prepend the explicit
100%-probability sos row (`zeros_like(output[:, 0:1, :])` with entry
`sos_index` set to `1.0`). -/
def Decoder.inference {χ ε η ρ : Type} (d : Decoder χ ε η ρ)
    (cnn_states : List χ) : List (List ℚ) :=
  let src_mask : List ℚ := List.replicate cnn_states.length 1
  let max_len := cnn_states.length
  let eo := d.init_rnn_states cnn_states
  let encoder_output := eo.1
  let hidden := eo.2
  let proj_key := d.key_layer encoder_output
  let res := (List.range max_len).foldl
    (d.inference_step encoder_output src_mask proj_key) (d.sos_index, hidden, [])
  let output := res.2.2.map d.generator_row
  let sos_prob := ((output.headD []).map (fun _ => (0 : ℚ))).set d.sos_index 1
  sos_prob :: output

/-- `Decoder.forward` (model.py:2944-2951): training mode dispatches to
`train_batch` (crashing if `trg` is `None`), evaluation mode to `inference`,
which takes no `trg` at all. -/
def Decoder.forward {χ ε η ρ : Type} (d : Decoder χ ε η ρ) (training : Bool)
    (cnn_states : List χ) (trg : Option (List ℕ)) : Except String (List (List ℚ)) :=
  if training then
    match trg with
    | some t => .ok (d.train_batch cnn_states t)
    | none => .error "TypeError: trg is None"
  else .ok (d.inference cnn_states)

/-- Modelled from the spec: "the sequence of STEPs is unrolled for exactly
`target_length` steps using the *ground-truth* previous token at each step
(teacher forcing)" — the reference unroll consuming one ground-truth token
per step. -/
def teacherForcedRows {χ ε η ρ : Type} (d : Decoder χ ε η ρ)
    (encoder_output : List χ) (src_mask : List ℚ) (proj_key : List χ) :
    η → List ℕ → List ρ
  | _, [] => []
  | hidden, tok :: rest =>
    let hp := d.forward_step (d.trg_embed tok) encoder_output src_mask proj_key hidden
    hp.2 :: teacherForcedRows d encoder_output src_mask proj_key hp.1 rest

/-- The reference teacher-forced decoder run: bridge, key projection, then
`teacherForcedRows`, then the generator on every row. -/
def spec_train_batch {χ ε η ρ : Type} (d : Decoder χ ε η ρ)
    (cnn_states : List χ) (trg : List ℕ) : List (List ℚ) :=
  let src_mask : List ℚ := List.replicate cnn_states.length 1
  let eo := d.init_rnn_states cnn_states
  (teacherForcedRows d eo.1 src_mask (d.key_layer eo.1) eo.2 trg).map d.generator_row

lemma train_foldl_eq_rows {χ ε η ρ : Type} (d : Decoder χ ε η ρ)
    (encoder_output : List χ) (src_mask : List ℚ) (proj_key : List χ) :
    ∀ (trg : List ℕ) (hidden : η) (acc : List ρ),
      (trg.foldl (d.train_step encoder_output src_mask proj_key) (hidden, acc)).2 =
        acc ++ teacherForcedRows d encoder_output src_mask proj_key hidden trg := by
  intro trg
  induction trg with
  | nil => intro hidden acc; simp [teacherForcedRows]
  | cons tok rest ih =>
    intro hidden acc
    have hstep : d.train_step encoder_output src_mask proj_key (hidden, acc) tok =
        ((d.forward_step (d.trg_embed tok) encoder_output src_mask proj_key hidden).1,
          acc ++ [(d.forward_step (d.trg_embed tok) encoder_output src_mask proj_key hidden).2]) :=
      rfl
    rw [List.foldl_cons, hstep, ih]
    simp [teacherForcedRows]

lemma inference_foldl_length {χ ε η ρ : Type} (d : Decoder χ ε η ρ)
    (encoder_output : List χ) (src_mask : List ℚ) (proj_key : List χ) :
    ∀ (l : List ℕ) (st : ℕ × η × List ρ),
      ((l.foldl (d.inference_step encoder_output src_mask proj_key) st).2.2).length =
        st.2.2.length + l.length := by
  intro l
  induction l with
  | nil => intro st; simp
  | cons i rest ih =>
    intro st
    rw [List.foldl_cons, ih]
    unfold Decoder.inference_step
    simp
    omega

lemma zeros_set_eq_onehot (r : List ℚ) (V sos : ℕ) (hr : r.length = V) (_hs : sos < V) :
    (r.map (fun _ => (0 : ℚ))).set sos 1 =
      (List.range V).map (fun k => if k = sos then (1 : ℚ) else 0) := by
  apply List.ext_getElem
  · simp [hr]
  · intro n h1 h2
    simp only [List.getElem_set, List.getElem_map, List.getElem_range]
    by_cases h : sos = n
    · subst h
      simp
    · rw [if_neg h, if_neg (fun hn => h hn.symm)]

/-- The list of pre-output rows `inference` accumulates over its
`max_len = cnn_states.size(1)` loop iterations. -/
def inference_pres {χ ε η ρ : Type} (d : Decoder χ ε η ρ) (cnn_states : List χ) : List ρ :=
  ((List.range cnn_states.length).foldl
    (d.inference_step (d.init_rnn_states cnn_states).1 (List.replicate cnn_states.length 1)
      (d.key_layer (d.init_rnn_states cnn_states).1))
    (d.sos_index, (d.init_rnn_states cnn_states).2, [])).2.2

lemma inference_eq_pres {χ ε η ρ : Type} (d : Decoder χ ε η ρ) (cnn_states : List χ) :
    d.inference cnn_states =
      ((((inference_pres d cnn_states).map d.generator_row).headD []).map
          (fun _ => (0 : ℚ))).set d.sos_index 1 ::
        (inference_pres d cnn_states).map d.generator_row := rfl

lemma inference_pres_length {χ ε η ρ : Type} (d : Decoder χ ε η ρ) (cnn_states : List χ) :
    (inference_pres d cnn_states).length = cnn_states.length := by
  unfold inference_pres
  rw [inference_foldl_length]
  simp

/-- Claim C2: on a backbone-state input of time length `M ≥ 1`, `inference`
produces exactly `M + 1` temporal rows, and row 0 is the explicitly
prepended distribution assigning probability `1.0` to `sos_index` and `0`
to every other vocabulary entry. -/
theorem C2_inference_rows_and_sos_row {χ ε η ρ : Type} (d : Decoder χ ε η ρ)
    (cnn_states : List χ) (hM : 0 < cnn_states.length)
    (hgen : ∀ r, (d.generator_row r).length = d.tgt_vocab)
    (hsos : d.sos_index < d.tgt_vocab) :
    (d.inference cnn_states).length = cnn_states.length + 1 ∧
      (d.inference cnn_states).head? =
        some ((List.range d.tgt_vocab).map fun k => if k = d.sos_index then (1 : ℚ) else 0) := by
  have hlen : (inference_pres d cnn_states).length = cnn_states.length :=
    inference_pres_length d cnn_states
  have hne : inference_pres d cnn_states ≠ [] := by
    intro h0
    rw [h0] at hlen
    simp at hlen
    omega
  obtain ⟨p, ps, hps⟩ := List.exists_cons_of_ne_nil hne
  rw [inference_eq_pres, hps]
  constructor
  · simp only [List.length_cons, List.length_map]
    rw [hps] at hlen
    simp only [List.length_cons] at hlen
    omega
  · rw [List.head?_cons]
    congr 1
    simp only [List.map_cons, List.headD_cons]
    exact zeros_set_eq_onehot (d.generator_row p) d.tgt_vocab d.sos_index (hgen p) hsos

/-- A decoder over trivial carrier types, for concrete evaluation. -/
def demoDecoder : Decoder Unit Unit Unit Unit :=
  { tgt_vocab := 4
    sos_index := 2
    trg_embed := fun _ => ()
    bridge := fun l => (l, ())
    key_layer := fun l => l
    forward_step := fun _ _ _ _ _ => ((), ())
    generator_row := fun _ => [0, 0, 0, 0]
    argmax_row := fun _ => 0 }

/-- Witness for C2 at `demoDecoder` on a length-1 input. -/
theorem C2_witness :
    (demoDecoder.inference [()]).length = 1 + 1 ∧
      (demoDecoder.inference [()]).head? =
        some ((List.range demoDecoder.tgt_vocab).map
          fun k => if k = demoDecoder.sos_index then (1 : ℚ) else 0) :=
  C2_inference_rows_and_sos_row demoDecoder [()] (by decide) (fun _ => rfl) (by decide)

lemma teacherForcedRows_length {χ ε η ρ : Type} (d : Decoder χ ε η ρ)
    (encoder_output : List χ) (src_mask : List ℚ) (proj_key : List χ) :
    ∀ (trg : List ℕ) (hidden : η),
      (teacherForcedRows d encoder_output src_mask proj_key hidden trg).length = trg.length := by
  intro trg
  induction trg with
  | nil => intro hidden; rfl
  | cons tok rest ih =>
    intro hidden
    unfold teacherForcedRows
    simp only [List.length_cons]
    rw [ih]

/-- Claim C3: `train_batch` on a target of temporal length `T ≥ 1` unrolls exactly
`T` decode steps, step `i` consuming the embedding of the ground-truth token
`trg[:, i]` (teacher forcing, the `teacherForcedRows` reference unroll), and
returns exactly `T` temporal rows. -/
theorem C3_train_batch_teacher_forced {χ ε η ρ : Type} (d : Decoder χ ε η ρ)
    (cnn_states : List χ) (trg : List ℕ) (_hT : 0 < trg.length) :
    d.train_batch cnn_states trg = spec_train_batch d cnn_states trg ∧
      (d.train_batch cnn_states trg).length = trg.length := by
  have h1 : d.train_batch cnn_states trg =
      ((trg.foldl
          (d.train_step (d.init_rnn_states cnn_states).1
            (List.replicate cnn_states.length 1)
            (d.key_layer (d.init_rnn_states cnn_states).1))
          ((d.init_rnn_states cnn_states).2, [])).2).map d.generator_row := rfl
  have h2 : spec_train_batch d cnn_states trg =
      (teacherForcedRows d (d.init_rnn_states cnn_states).1
        (List.replicate cnn_states.length 1)
        (d.key_layer (d.init_rnn_states cnn_states).1)
        (d.init_rnn_states cnn_states).2 trg).map d.generator_row := rfl
  have heq : d.train_batch cnn_states trg = spec_train_batch d cnn_states trg := by
    rw [h1, h2, train_foldl_eq_rows]
    simp
  refine ⟨heq, ?_⟩
  rw [heq, h2, List.length_map, teacherForcedRows_length]

/-- Witness for C3 at `demoDecoder` with a length-2 target. -/
theorem C3_witness :
    demoDecoder.train_batch [()] [1, 2] = spec_train_batch demoDecoder [()] [1, 2] ∧
      (demoDecoder.train_batch [()] [1, 2]).length = 2 :=
  C3_train_batch_teacher_forced demoDecoder [()] [1, 2] (by decide)

/-- Claim C10: in evaluation (non-training) mode, `forward` dispatches to
`inference`, which takes no `trg`; the result is identical for every value
of the `trg` argument, including `None`. -/
theorem C10_eval_forward_ignores_trg {χ ε η ρ : Type} (d : Decoder χ ε η ρ)
    (cnn_states : List χ) (trg₁ trg₂ : Option (List ℕ)) :
    d.forward false cnn_states trg₁ = d.forward false cnn_states trg₂ := rfl
